import Mathlib

/-!
Shallow embedding of the packet ingestion and decoding pipeline of the
snifferUI repository, together with theorems settling the frozen claims.

The embedding translates, function by function, the TypeScript sources:
  * the `rebuildFromProto` schema-registry builder (App.tsx),
  * the batch import mapper `handleUpload` (App.tsx),
  * the live stream `packetNotify` handler inside `startMonitoring` (App.tsx),
  * the pcap event stream handler inside `listenPcapEventStream` and the
    `getDynamicTypeName` helper (the packet visualizer component),
  * the schema-rebuild re-decode pass over stored packets (App.tsx),
  * the `processFiles` precondition check of the PCAP upload modal.

External capabilities (the protobufjs type registry with its `lookupType` and
binary `decode`, and the capture server upload endpoint) are modelled as
explicit function parameters returning `Option`/`Except`; a `none`/`error`
result stands for the thrown-and-caught exception of the source.  JavaScript
truthiness of optional strings and numbers is modelled explicitly
(`truthyStr`, `jsOrStr`, `jsNumOr`).  All string manipulation is done on
`List Char` with structural recursion so every definition evaluates by kernel
reduction.
-/

/-! ## JavaScript string primitives -/

/-- Boolean prefix test on character lists (JS `String.prototype.startsWith`). -/
def hasLead : List Char → List Char → Bool
  | [], _ => true
  | _ :: _, [] => false
  | c :: cs, d :: ds => c = d && hasLead cs ds

/-- Remove the first occurrence of `pat` from `s`
(JS `s.replace(pat, "")` with a plain-string pattern). -/
def removeFirst : List Char → List Char → List Char
  | [], _ => []
  | c :: cs, pat => if hasLead pat (c :: cs) then (c :: cs).drop pat.length else c :: removeFirst cs pat

/-- JS `toLowerCase` on the ASCII strings handled by the pipeline. -/
def jsLower (l : List Char) : List Char := l.map Char.toLower

/-- JS `toUpperCase` on the ASCII strings handled by the pipeline. -/
def jsUpper (s : String) : String := String.mk (s.data.map Char.toUpper)

/-- JS `word.charAt(0).toUpperCase() + word.slice(1)` (empty input gives empty output). -/
def capFirst : List Char → List Char
  | [] => []
  | c :: cs => Char.toUpper c :: cs

/-- JS `s.split("_")`: keeps empty segments, and the empty string yields `[""]`. -/
def splitUnderscore : List Char → List (List Char)
  | [] => [[]]
  | c :: cs =>
    let rest := splitUnderscore cs
    if c = '_' then [] :: rest
    else
      match rest with
      | [] => [[c]]
      | w :: ws => (c :: w) :: ws

/-- Concatenation of the word list (JS `Array.prototype.join("")`). -/
def joinAll (ls : List (List Char)) : List Char := ls.foldr (· ++ ·) []

/-- The SNAKE_CASE to CamelCase conversion used by `getDynamicTypeName`:
lowercase the whole string, split on underscores, capitalize the first
character of each segment, join. -/
def camelCase (l : List Char) : List Char := joinAll ((splitUnderscore (jsLower l)).map capFirst)

/-! ## getDynamicTypeName (packet visualizer) -/

/-- Translation of the visualizer's `getDynamicTypeName`: maps a
`CombatTypeArgument_*` discriminator string to a dynamically generated proto
type name, or `none` when the argument does not carry the
`CombatTypeArgument_` marker. -/
def getDynamicTypeName (argType : String) : Option String :=
  if hasLead "CombatTypeArgument_".data argType.data = false then none
  else
    let stripped := removeFirst argType.data "CombatTypeArgument_".data
    if hasLead "COMBAT".data stripped then
      let stripped2 := removeFirst stripped "COMBAT".data
      some (String.mk (camelCase stripped2) ++ "Info")
    else
      some (String.mk (camelCase stripped) ++ "Info")

/-- Restatement of the claim's description of the transform, written from the
claim's words: for an argument starting with `CombatTypeArgument_`, take the
remainder after that marker, remove a leading `COMBAT` token when present,
convert from SNAKE_CASE to CamelCase and append `Info`; otherwise `none`. -/
def claimDynamicTypeName (argType : String) : Option String :=
  if hasLead "CombatTypeArgument_".data argType.data then
    let remainder := argType.data.drop ("CombatTypeArgument_".data).length
    let base := if hasLead "COMBAT".data remainder then remainder.drop ("COMBAT".data).length else remainder
    some (String.mk (camelCase base) ++ "Info")
  else none

theorem hasLead_removeFirst (p : List Char) : ∀ s : List Char, hasLead p s = true →
    removeFirst s p = s.drop p.length := by
  intro s h
  cases s with
  | nil =>
    cases p with
    | nil => rfl
    | cons c cs => simp [hasLead] at h
  | cons c cs =>
    simp only [removeFirst, h, if_true]

/-- C10: `getDynamicTypeName` is a total pure function agreeing everywhere with
the claim's description `claimDynamicTypeName`; it returns `none` exactly when
its argument does not start with `CombatTypeArgument_`, and on the claim's
example it produces `EvtBeingHitInfo`. -/
theorem c10_getDynamicTypeName_spec :
    (∀ s : String, getDynamicTypeName s = claimDynamicTypeName s) ∧
    (∀ s : String, getDynamicTypeName s = none ↔
      hasLead "CombatTypeArgument_".data s.data = false) ∧
    getDynamicTypeName "CombatTypeArgument_COMBAT_EVT_BEING_HIT" = some "EvtBeingHitInfo" := by
  refine ⟨?_, ?_, by decide⟩
  · intro s
    unfold getDynamicTypeName claimDynamicTypeName
    cases h : hasLead "CombatTypeArgument_".data s.data with
    | false => simp [h]
    | true =>
      simp only [h, Bool.true_eq_false, if_false, if_true]
      rw [hasLead_removeFirst _ _ h]
      cases h2 : hasLead "COMBAT".data (s.data.drop ("CombatTypeArgument_".data).length) with
      | false => simp [h2]
      | true =>
        simp only [h2, if_true]
        rw [hasLead_removeFirst _ _ h2]
  · intro s
    unfold getDynamicTypeName
    cases h : hasLead "CombatTypeArgument_".data s.data with
    | false => simp [h]
    | true =>
      simp only [h, Bool.true_eq_false, if_false]
      constructor
      · intro hc
        split at hc <;> simp at hc
      · intro hc
        simp at hc

/-! ## Schema registry: command-id association scan (rebuildFromProto) -/

/-- ASCII whitespace test standing for the regex class and `String.prototype.trim`. -/
def isWsChar (c : Char) : Bool := c.isWhitespace

/-- JS `line.trim()`. -/
def jsTrim (l : List Char) : List Char :=
  ((l.dropWhile isWsChar).reverse.dropWhile isWsChar).reverse

/-- JS `\w` word-character class `[A-Za-z0-9_]`. -/
def isWordChar (c : Char) : Bool := c.isAlphanum || c = '_'

/-- Numeric value of a digit run (JS `Number` applied to the captured digits). -/
def digitsVal (l : List Char) : Nat := l.foldl (fun acc c => acc * 10 + (c.toNat - 48)) 0

/-- Match of the trimmed line against `^\/\/\s*CmdId:\s*(\d+)`, returning the
captured command id. -/
def parseCmdIdLine (t : List Char) : Option Nat :=
  if hasLead "//".data t then
    let r1 := (t.drop 2).dropWhile isWsChar
    if hasLead "CmdId:".data r1 then
      let r2 := (r1.drop 6).dropWhile isWsChar
      let ds := r2.takeWhile Char.isDigit
      if ds.isEmpty then none else some (digitsVal ds)
    else none
  else none

/-- Match of the trimmed line against `^message\s+(\w+)`, returning the
captured message name. -/
def parseMessageLine (t : List Char) : Option (List Char) :=
  if hasLead "message".data t then
    match t.drop 7 with
    | [] => none
    | c :: rest =>
      if isWsChar c then
        let w := (rest.dropWhile isWsChar).takeWhile isWordChar
        if w.isEmpty then none else some w
      else none
  else none

/-- Read of a JS object used as a map (`cmdIdToMessageMap[k]`): the most
recent write for a key wins. -/
def lookupMap (m : List (Nat × String)) (k : Nat) : Option String :=
  (m.find? (fun e => e.1 == k)).map (fun e => e.2)

/-- Write to a JS object used as a map (`newMap[k] = v`). -/
def mapInsert (m : List (Nat × String)) (k : Nat) (v : String) : List (Nat × String) :=
  (k, v) :: m

/-- `Object.keys(newMap).length`: the number of distinct keys written. -/
def keyCount (m : List (Nat × String)) : Nat := (m.map (fun e => e.1)).dedup.length

/-- One iteration of the `for (const line of lines)` loop of
`rebuildFromProto`: state is the map built so far plus the pending command
id.  A `CmdId` comment stores a pending id and `continue`s; a `message`
declaration consumes the pending id when one is set; every other line leaves
the state untouched. -/
def scanStep (st : List (Nat × String) × Option Nat) (line : String) :
    List (Nat × String) × Option Nat :=
  let t := jsTrim line.data
  match parseCmdIdLine t with
  | some n => (st.1, some n)
  | none =>
    match parseMessageLine t with
    | some w =>
      match st.2 with
      | some pending => (mapInsert st.1 pending (String.mk w), none)
      | none => st
    | none => st

/-- JS `protoText.split(/\r?\n/)`. -/
def splitLinesJs : List Char → List (List Char)
  | [] => [[]]
  | '\r' :: '\n' :: cs => [] :: splitLinesJs cs
  | '\n' :: cs => [] :: splitLinesJs cs
  | c :: cs =>
    match splitLinesJs cs with
    | [] => [[c]]
    | w :: ws => (c :: w) :: ws

/-- The command-id map produced by the line scan of `rebuildFromProto`. -/
def rebuildScanMap (text : String) : List (Nat × String) :=
  (((splitLinesJs text.data).map String.mk).foldl scanStep ([], none)).1

/-- C2 counterexample: in `rebuildFromProto`, a pending command id is NOT
discarded by an intervening non-matching line; the schema source
`"// CmdId: 5\nnot a match;\nmessage Baz"` still associates id 5 with `Baz`,
although the middle line matches neither regex. -/
theorem c2_counterexample :
    lookupMap (rebuildScanMap "// CmdId: 5\nnot a match;\nmessage Baz") 5 = some "Baz" ∧
    parseCmdIdLine (jsTrim "not a match;".data) = none ∧
    parseMessageLine (jsTrim "not a match;".data) = none := by
  decide

/-- C2 amended: in `rebuildFromProto`, a comment line `CmdId: n` associates
`n` with the type name of the NEXT `message` declaration, however many
non-matching lines lie in between: a line matching neither regex leaves both
the map and the pending id unchanged (nothing is discarded), and a `message`
line consumes whatever id is pending at that point. -/
theorem c2_pending_id_carries (st : List (Nat × String) × Option Nat)
    (m : List (Nat × String)) (p : Nat) (line line2 : String) (w : List Char)
    (h1 : parseCmdIdLine (jsTrim line.data) = none)
    (h2 : parseMessageLine (jsTrim line.data) = none)
    (h3 : parseCmdIdLine (jsTrim line2.data) = none)
    (h4 : parseMessageLine (jsTrim line2.data) = some w) :
    scanStep st line = st ∧
    scanStep (m, some p) line2 = (mapInsert m p (String.mk w), none) := by
  constructor
  · simp only [scanStep, h1, h2]
  · simp only [scanStep, h3, h4]

/-- C2 witness: the amended behaviour at concrete inputs: the non-matching
line `"not a match;"` keeps the pending id 3, and a following
`"message Foo"` line consumes it. -/
theorem c2_pending_id_carries_witness :
    scanStep ([], some 3) "not a match;" = ([], some 3) ∧
    scanStep ([], some 3) "message Foo" = ([(3, "Foo")], none) := by
  have h := c2_pending_id_carries ([], some 3) [] 3 "not a match;" "message Foo"
    "Foo".data (by decide) (by decide) (by decide) (by decide)
  exact ⟨h.1, h.2⟩

/-! ## App.tsx data model (batch import and live stream) -/

/-- The `data` field of an inbound raw record.  `undef` is JS `undefined`;
`str` is a string payload; `obj` stands for a non-string (hence truthy) JSON
value together with its `JSON.stringify` rendering. -/
inductive JsData where
  | undef : JsData
  | str : String → JsData
  | obj : String → JsData
deriving DecidableEq, Repr

/-- JS truthiness of a `data` value (`undefined` and `""` are falsy). -/
def JsData.truthy : JsData → Bool
  | .undef => false
  | .str s => s != ""
  | .obj _ => true

/-- The fallback payload text: the initial `""` when `data` is falsy, the
string verbatim when it is a string, its stringification otherwise. -/
def JsData.fallbackText : JsData → String
  | .undef => ""
  | .str s => s
  | .obj j => j

/-- JS truthiness of an optional string (`undefined` and `""` are falsy). -/
def truthyStr : Option String → Bool
  | none => false
  | some s => s != ""

/-- JS `a || b` on optional strings. -/
def jsOrStr (a b : Option String) : Option String :=
  match a with
  | some s => if s = "" then b else some s
  | none => b

/-- JS `a || b` on an optional number with a numeric fallback (0 is falsy). -/
def jsNumOr (a : Option Nat) (b : Nat) : Nat :=
  match a with
  | some n => if n = 0 then b else n
  | none => b

/-- `item.source?.toUpperCase() === 'CLIENT' ? 'CLIENT' : 'SERVER'`. -/
def sourceField (src : Option String) : String :=
  match src with
  | some s => if jsUpper s = "CLIENT" then "CLIENT" else "SERVER"
  | none => "SERVER"

/-- `new Date(t).toLocaleTimeString()`.  The locale rendering itself is not
observable by any claim; it is abstracted as the decimal rendering of the
millisecond count, with JS `Invalid Date` for an `undefined` argument. -/
def localeTime (t : Option Nat) : String :=
  match t with
  | some n => toString n
  | none => "Invalid Date"

/-- The canonical `Packet` entity of App.tsx (src/types): `index` is the
sequence index, `data` the payload text, `dataSource` the provenance tag
(`"BINARY"` for decoded binary, `"JSON"` for inline/fallback payloads). -/
structure Packet where
  timestamp : String
  source : String
  id : Nat
  packetName : Option String
  length : Option Nat
  index : Nat
  data : String
  binary : Option String
  dataSource : String
deriving DecidableEq, Repr

/-- An inbound raw record, as consumed by `handleUpload` (one JSON array
element) and by the `packetNotify` stream listener (one parsed event). -/
structure StreamRecord where
  packetId : Nat
  packetName : Option String
  data : JsData
  binary : Option String
  time : Option Nat
  source : Option String
  length : Option Nat
deriving DecidableEq, Repr

/-- The decoding capability of the protobufjs registry
(`protoRootRef.current.lookupType(name).decode(bytes).toJSON()` followed by
`JSON.stringify`): `none` models the thrown-and-caught exception for an
unknown type name or malformed bytes. -/
def DecodeFn := String → String → Option String

/-- Batch import name resolution:
`item.packetName || cmdIdToMessageMap[item.packetId]`. -/
def uploadResolveName (reg : List (Nat × String)) (item : StreamRecord) : Option String :=
  jsOrStr item.packetName (lookupMap reg item.packetId)

/-- Live stream name resolution:
`cmdIdToMessageMapRef.current[packetData.packetId] || packetData.packetName`. -/
def streamResolveName (reg : List (Nat × String)) (r : StreamRecord) : Option String :=
  jsOrStr (lookupMap reg r.packetId) r.packetName

/-- The batch import binary decode attempt (`if (item.binary) { ... if
(protoName) { decode } }`); `none` when no decode happened or it failed. -/
def uploadDecodeAttempt (f : DecodeFn) (reg : List (Nat × String)) (item : StreamRecord) :
    Option String :=
  if truthyStr item.binary then
    let pn := uploadResolveName reg item
    if truthyStr pn then f (pn.getD "") (item.binary.getD "") else none
  else none

/-- The body of the `data.map` of `handleUpload`: one raw record at array
position `i` becomes one `Packet`, decoded binary first, inline data as
fallback, with `index := i`. -/
def mapUploadItem (f : DecodeFn) (reg : List (Nat × String)) (i : Nat) (item : StreamRecord) :
    Packet :=
  match uploadDecodeAttempt f reg item with
  | some parsed =>
    { timestamp := localeTime item.time, source := sourceField item.source,
      id := item.packetId, packetName := item.packetName, length := item.length,
      index := i, data := parsed, binary := item.binary, dataSource := "BINARY" }
  | none =>
    { timestamp := localeTime item.time, source := sourceField item.source,
      id := item.packetId, packetName := item.packetName, length := item.length,
      index := i, data := item.data.fallbackText, binary := item.binary, dataSource := "JSON" }

/-- The packet list built by `handleUpload` from an uploaded JSON array. -/
def handleUploadPackets (f : DecodeFn) (reg : List (Nat × String)) (items : List StreamRecord) :
    List Packet :=
  items.enum.map (fun p => mapUploadItem f reg p.1 p.2)

/-- The live stream binary decode attempt
(`if (packetData.binary && protoName) { try { decode } ... }`). -/
def streamDecodeAttempt (f : DecodeFn) (reg : List (Nat × String)) (r : StreamRecord) :
    Option String :=
  if truthyStr r.binary then
    let pn := streamResolveName reg r
    if truthyStr pn then f (pn.getD "") (r.binary.getD "") else none
  else none

/-- The `packetNotify` listener body of `startMonitoring`: allocates
`currentIndex = globalPacketIndexRef.current++`, resolves the name, tries the
binary decode, falls back to the inline data, and appends one new `Packet`.
Returns the packet and the updated counter. -/
def streamHandler (f : DecodeFn) (reg : List (Nat × String)) (now : Nat) (g : Nat)
    (r : StreamRecord) : Packet × Nat :=
  let pn := streamResolveName reg r
  let lengthVal := jsNumOr r.length (match r.binary with
    | some b => if b = "" then 0 else b.length
    | none => 0)
  let p : Packet :=
    match streamDecodeAttempt f reg r with
    | some parsed =>
      { timestamp := localeTime (some (jsNumOr r.time now)), source := sourceField r.source,
        id := r.packetId, packetName := some ((jsOrStr pn (some "Unknown")).getD "Unknown"),
        length := some lengthVal, index := g, data := parsed, binary := r.binary,
        dataSource := "BINARY" }
    | none =>
      { timestamp := localeTime (some (jsNumOr r.time now)), source := sourceField r.source,
        id := r.packetId, packetName := some ((jsOrStr pn (some "Unknown")).getD "Unknown"),
        length := some lengthVal, index := g, data := r.data.fallbackText, binary := r.binary,
        dataSource := "JSON" }
  (p, g + 1)

/-! ## C4: schema-name resolution order -/

/-- A raw record carrying both a `packetName` hint and a registry-mapped id,
used to separate the two resolution orders. -/
def recC4 : StreamRecord :=
  { packetId := 7, packetName := some "Hint", data := .undef, binary := some "QQ==",
    time := some 1, source := none, length := none }

/-- C4 counterexample: with registry `{7 ↦ "Reg"}` and a record whose
`packetName` hint is `"Hint"`, the Live Stream path resolves the REGISTRY
name first (`cmdIdToMessageMap[...] || packetData.packetName`), contradicting
the claim that both paths try the hint first; the Batch Import path does try
the hint first. -/
theorem c4_counterexample :
    streamResolveName [(7, "Reg")] recC4 = some "Reg" ∧
    uploadResolveName [(7, "Reg")] recC4 = some "Hint" ∧
    recC4.packetName = some "Hint" ∧
    some "Reg" ≠ (some "Hint" : Option String) := by
  decide

/-- C4 amended: the Batch Import path tries the record's own `packetName`
hint first and falls back to the registry lookup, while the Live Stream path
tries the registry lookup by command id first and falls back to the hint only
when the registry has no (truthy) entry. -/
theorem c4_resolution_order (reg : List (Nat × String)) (item r q : StreamRecord) (n m : String)
    (h1 : item.packetName = some n) (h2 : n ≠ "")
    (h3 : lookupMap reg r.packetId = some m) (h4 : m ≠ "")
    (h5 : lookupMap reg q.packetId = none) :
    uploadResolveName reg item = some n ∧
    streamResolveName reg r = some m ∧
    streamResolveName reg q = q.packetName := by
  refine ⟨?_, ?_, ?_⟩
  · simp [uploadResolveName, jsOrStr, h1, h2]
  · simp [streamResolveName, jsOrStr, h3, h4]
  · simp [streamResolveName, jsOrStr, h5]

/-- C4 witness: the amended resolution order at concrete inputs. -/
theorem c4_resolution_order_witness :
    uploadResolveName [(7, "Reg")] recC4 = some "Hint" ∧
    streamResolveName [(7, "Reg")] recC4 = some "Reg" ∧
    streamResolveName [(7, "Reg")] { recC4 with packetId := 9 } =
      ({ recC4 with packetId := 9 } : StreamRecord).packetName :=
  c4_resolution_order [(7, "Reg")] recC4 recC4 { recC4 with packetId := 9 } "Hint" "Reg"
    (by decide) (by decide) (by decide) (by decide) (by decide)

/-! ## C5: soft-fail decode -/

/-- C5 amended: when the binary decode attempt does not succeed (command id
absent from the registry, unknown type name, malformed bytes — all modelled
by the attempt returning `none`), both ingestion paths still produce exactly
one `Packet` per record, with `dataSource = "JSON"` and the inline data as
payload text when inline data is present — but the EMPTY STRING, not a
sentinel, when inline data is absent (`fallbackText` covers both cases); the
stream handler still allocates exactly one index, batch import maps records
one-to-one, and being total functions the handlers never throw.  A command id
absent from the registry together with an absent hint always makes the
attempt fail. -/
theorem c5_soft_fail (f : DecodeFn) (reg : List (Nat × String)) (i now g : Nat)
    (item r : StreamRecord) (items : List StreamRecord)
    (h1 : uploadDecodeAttempt f reg item = none)
    (h2 : streamDecodeAttempt f reg r = none) :
    ((mapUploadItem f reg i item).dataSource = "JSON" ∧
      (mapUploadItem f reg i item).data = item.data.fallbackText) ∧
    ((streamHandler f reg now g r).1.dataSource = "JSON" ∧
      (streamHandler f reg now g r).1.data = r.data.fallbackText ∧
      (streamHandler f reg now g r).2 = g + 1) ∧
    (handleUploadPackets f reg items).length = items.length ∧
    (lookupMap reg item.packetId = none → item.packetName = none →
      uploadDecodeAttempt f reg item = none ∧ streamDecodeAttempt f reg item = none) := by
  refine ⟨⟨?_, ?_⟩, ⟨?_, ?_, rfl⟩, ?_, ?_⟩
  · simp [mapUploadItem, h1]
  · simp [mapUploadItem, h1]
  · simp [streamHandler, h2]
  · simp [streamHandler, h2]
  · simp [handleUploadPackets]
  · intro hl hn
    constructor
    · simp [uploadDecodeAttempt, uploadResolveName, jsOrStr, hl, hn, truthyStr]
    · simp [streamDecodeAttempt, streamResolveName, jsOrStr, hl, hn, truthyStr]

/-- A raw record with a binary payload that no registry entry can decode. -/
def recC5 : StreamRecord :=
  { packetId := 42, packetName := none, data := .str "fallback payload",
    binary := some "QUJD", time := some 3, source := some "client", length := some 5 }

/-- The always-failing decode capability (empty or mismatching registry). -/
def decNone : DecodeFn := fun _ _ => none

/-- A record whose binary payload fails to decode (command id absent from the
registry, no hint) and which carries no inline data at all. -/
def recC5NoData : StreamRecord :=
  { packetId := 42, packetName := none, data := .undef, binary := some "QUJD",
    time := some 3, source := some "client", length := some 5 }

/-- C5 counterexample: for a record whose binary payload fails to decode
(binary present, command id absent from the registry, no hint) and which has
no inline data, both ingestion paths produce a packet whose payload text is
the EMPTY STRING — neither the inline data (none exists) nor a sentinel
status object nor `"\x7b\x7d"` — refuting the claim's conclusion about the
payload text, although `dataSource` is `"JSON"` as claimed. -/
theorem c5_counterexample :
    uploadDecodeAttempt decNone [] recC5NoData = none ∧
    recC5NoData.binary = some "QUJD" ∧
    recC5NoData.data = .undef ∧
    (mapUploadItem decNone [] 0 recC5NoData).data = "" ∧
    (mapUploadItem decNone [] 0 recC5NoData).data ≠ "\x7b\x7d" ∧
    (mapUploadItem decNone [] 0 recC5NoData).data ≠ "\x7b\"status\":-1\x7d" ∧
    (mapUploadItem decNone [] 0 recC5NoData).dataSource = "JSON" ∧
    (streamHandler decNone [] 9 0 recC5NoData).1.data = "" ∧
    (streamHandler decNone [] 9 0 recC5NoData).1.dataSource = "JSON" := by
  decide

/-- C5 witness: the soft-fail behaviour at a concrete record whose command id
is absent from the registry. -/
theorem c5_soft_fail_witness :
    ((mapUploadItem decNone [] 0 recC5).dataSource = "JSON" ∧
      (mapUploadItem decNone [] 0 recC5).data = recC5.data.fallbackText) ∧
    ((streamHandler decNone [] 9 4 recC5).1.dataSource = "JSON" ∧
      (streamHandler decNone [] 9 4 recC5).1.data = recC5.data.fallbackText ∧
      (streamHandler decNone [] 9 4 recC5).2 = 4 + 1) ∧
    (handleUploadPackets decNone [] [recC5]).length = [recC5].length ∧
    (lookupMap [] recC5.packetId = none → recC5.packetName = none →
      uploadDecodeAttempt decNone [] recC5 = none ∧ streamDecodeAttempt decNone [] recC5 = none) :=
  c5_soft_fail decNone [] 0 9 4 recC5 recC5 [recC5] (by decide) (by decide)

/-! ## C3: sequence indices across ingestion sources -/

/-- One ingestion event: a live `packetNotify` event, or one batch import of
a whole uploaded array. -/
inductive IngestEvent where
  | live : StreamRecord → IngestEvent
  | batch : List StreamRecord → IngestEvent

/-- Ingestion state: the process-wide counter `globalPacketIndexRef.current`,
the current in-memory collection (`packets`), and the log of every `Packet`
produced so far across all sources. -/
structure IngestState where
  counter : Nat
  collection : List Packet
  produced : List Packet

/-- One ingestion step.  A live event appends the handler's packet and bumps
the counter; a batch import REPLACES the collection with the mapped array
(`setPackets(mappedPackets)`) and sets the counter to the array length
(`globalPacketIndexRef.current = mappedPackets.length`). -/
def ingestStep (f : DecodeFn) (reg : List (Nat × String)) (now : Nat) (st : IngestState) :
    IngestEvent → IngestState
  | .live r =>
    let pr := streamHandler f reg now st.counter r
    { counter := pr.2, collection := st.collection ++ [pr.1], produced := st.produced ++ [pr.1] }
  | .batch rs =>
    let ps := handleUploadPackets f reg rs
    { counter := ps.length, collection := ps, produced := st.produced ++ ps }

/-- Run of an ingestion event sequence from a fresh session. -/
def ingestRun (f : DecodeFn) (reg : List (Nat × String)) (now : Nat)
    (evs : List IngestEvent) : IngestState :=
  evs.foldl (ingestStep f reg now) { counter := 0, collection := [], produced := [] }

/-- The packets produced by a run of live events only, threading the counter. -/
def liveRun (f : DecodeFn) (reg : List (Nat × String)) (now : Nat) :
    Nat → List StreamRecord → List Packet
  | _, [] => []
  | g, r :: rs =>
    (streamHandler f reg now g r).1 :: liveRun f reg now (streamHandler f reg now g r).2 rs

theorem streamHandler_fst_index (f : DecodeFn) (reg : List (Nat × String)) (now g : Nat)
    (r : StreamRecord) : ((streamHandler f reg now g r).1).index = g := by
  unfold streamHandler
  cases streamDecodeAttempt f reg r <;> rfl

theorem mapUploadItem_index (f : DecodeFn) (reg : List (Nat × String)) (i : Nat)
    (item : StreamRecord) : (mapUploadItem f reg i item).index = i := by
  unfold mapUploadItem
  cases uploadDecodeAttempt f reg item <;> rfl

theorem handleUploadPackets_indices (f : DecodeFn) (reg : List (Nat × String))
    (items : List StreamRecord) :
    (handleUploadPackets f reg items).map Packet.index = List.range items.length := by
  unfold handleUploadPackets
  rw [List.map_map]
  have : ∀ p : Nat × StreamRecord,
      (Packet.index ∘ fun q : Nat × StreamRecord => mapUploadItem f reg q.1 q.2) p = p.1 := by
    intro p
    simp [mapUploadItem_index]
  rw [List.map_congr_left (fun a _ => this a), List.enum_map_fst]

theorem liveRun_indices (f : DecodeFn) (reg : List (Nat × String)) (now : Nat) :
    ∀ (rs : List StreamRecord) (g : Nat),
    (liveRun f reg now g rs).map Packet.index = (List.range rs.length).map (fun i => i + g) := by
  intro rs
  induction rs with
  | nil => intro g; rfl
  | cons r rs ih =>
    intro g
    have hcnt : (streamHandler f reg now g r).2 = g + 1 := rfl
    simp only [liveRun, List.map_cons, streamHandler_fst_index, hcnt, ih (g + 1),
      List.length_cons, List.range_succ_eq_map, List.map_map]
    congr 1
    · omega
    · apply List.map_congr_left
      intro a _
      simp only [Function.comp_apply]
      omega

theorem ingest_live_only_produced (f : DecodeFn) (reg : List (Nat × String)) (now : Nat) :
    ∀ (rs : List StreamRecord) (st : IngestState),
    ((rs.map IngestEvent.live).foldl (ingestStep f reg now) st).produced =
      st.produced ++ liveRun f reg now st.counter rs := by
  intro rs
  induction rs with
  | nil => intro st; simp [liveRun]
  | cons r rs ih =>
    intro st
    simp only [List.map_cons, List.foldl_cons, ih, ingestStep, liveRun, List.append_assoc,
      List.cons_append, List.nil_append]

/-- C3 counterexample: a Live Stream event followed by a Batch Import of one
record produces two packets whose sequence indices are `[0, 0]` — a
duplicate, because `handleUpload` restarts its indices at the array position
0 instead of continuing from the process-wide counter. -/
theorem c3_counterexample :
    ((ingestRun decNone [] 9 [.live recC5, .batch [recC5]]).produced.map Packet.index = [0, 0]) ∧
    ¬ List.Pairwise (fun a b => a < b)
      ((ingestRun decNone [] 9 [.live recC5, .batch [recC5]]).produced.map Packet.index) := by
  decide

/-- C3 amended: Live Stream ingestion alone yields strictly increasing
sequence indices continuing from the process-wide counter (a run of `n` live
events from counter `g` produces indices `g, g+1, …, g+n-1`); Batch Import
instead assigns indices `0, …, n-1` in input array order, restarting from 0,
and resets the counter to the batch length, so a mix of sources can repeat
indices. -/
theorem c3_sequence_indices (f : DecodeFn) (reg : List (Nat × String)) (now : Nat)
    (rs items : List StreamRecord) (st : IngestState) (r : StreamRecord) :
    ((ingestRun f reg now (rs.map IngestEvent.live)).produced.map Packet.index =
      (List.range rs.length).map (fun i => i + 0)) ∧
    List.Pairwise (fun a b => a < b)
      ((ingestRun f reg now (rs.map IngestEvent.live)).produced.map Packet.index) ∧
    ((handleUploadPackets f reg items).map Packet.index = List.range items.length) ∧
    (ingestStep f reg now st (.batch items)).counter = items.length ∧
    (ingestStep f reg now st (.live r)).counter = st.counter + 1 := by
  have hprod : (ingestRun f reg now (rs.map IngestEvent.live)).produced.map Packet.index =
      (List.range rs.length).map (fun i => i + 0) := by
    unfold ingestRun
    rw [ingest_live_only_produced]
    simp [liveRun_indices]
  refine ⟨hprod, ?_, handleUploadPackets_indices f reg items, ?_, ?_⟩
  · rw [hprod]
    exact (List.pairwise_lt_range _).map _ (fun a b h => by omega)
  · simp [ingestStep, handleUploadPackets]
  · rfl

/-! ## rebuildFromProto: atomic registry replace and bulk re-decode -/

/-- The proto-related state of App.tsx: the protobufjs root (its decoding
capability), the command-id map, and the stored packet collection. -/
structure AppState where
  decodeRoot : DecodeFn
  cmdIdToMessageMap : List (Nat × String)
  packets : List Packet

/-- The result record returned by `rebuildFromProto`. -/
structure BuildResult where
  success : Bool
  mappingCount : Nat
  error : Option String
deriving DecidableEq, Repr

/-- The body of the `packets.map` of the post-rebuild re-decode pass: if the
new map names the packet's command id and the packet retains binary data, try
to re-decode (on failure keep the old data but update the name); if only the
name is known, update the name; otherwise return the packet unchanged. -/
def redecodePacket (root : DecodeFn) (newMap : List (Nat × String)) (p : Packet) : Packet :=
  match lookupMap newMap p.id with
  | some protoName =>
    if protoName = "" then p
    else if truthyStr p.binary then
      match root protoName (p.binary.getD "") with
      | some dec => { p with packetName := some protoName, data := dec, dataSource := "BINARY" }
      | none => { p with packetName := some protoName }
    else { p with packetName := some protoName }
  | none => p

/-- `rebuildFromProto` of App.tsx: parse the schema text (`protobuf.parse`,
modelled by the `parse` capability); on a parse error return a failure result
WITHOUT touching any state; on success replace the root, rebuild the
command-id map with the line scan, and run the re-decode pass over the stored
packets. -/
def rebuildFromProto (parse : String → Except String DecodeFn) (st : AppState) (text : String) :
    AppState × BuildResult :=
  match parse text with
  | .error msg => (st, { success := false, mappingCount := 0, error := some msg })
  | .ok root =>
    let newMap := rebuildScanMap text
    let newPackets := st.packets.map (redecodePacket root newMap)
    ({ decodeRoot := root, cmdIdToMessageMap := newMap, packets := newPackets },
      { success := true, mappingCount := keyCount newMap, error := none })

/-- C6: when the schema source fails to parse, `rebuildFromProto` returns a
failure result and leaves the whole proto state — in particular the
previously-built type registry and the command-id map — completely
unchanged. -/
theorem c6_registry_atomic (parse : String → Except String DecodeFn) (st : AppState)
    (text msg : String) (h : parse text = .error msg) :
    rebuildFromProto parse st text = (st, { success := false, mappingCount := 0, error := some msg }) ∧
    (rebuildFromProto parse st text).1.decodeRoot = st.decodeRoot ∧
    (rebuildFromProto parse st text).1.cmdIdToMessageMap = st.cmdIdToMessageMap ∧
    (rebuildFromProto parse st text).2.success = false := by
  refine ⟨?_, ?_, ?_, ?_⟩ <;> simp [rebuildFromProto, h]

/-- A parse capability that always fails (syntactically invalid source). -/
def parseFail : String → Except String DecodeFn := fun _ => .error "syntax error"

/-- An app state with one stored packet, used as concrete input. -/
def stC6 : AppState :=
  { decodeRoot := decNone, cmdIdToMessageMap := [(7, "Old")],
    packets := [mapUploadItem decNone [] 0 recC5] }

/-- C6 witness: the atomic keep-old behaviour at a concrete failing parse. -/
theorem c6_registry_atomic_witness :
    rebuildFromProto parseFail stC6 "message \x7b" =
      (stC6, { success := false, mappingCount := 0, error := some "syntax error" }) ∧
    (rebuildFromProto parseFail stC6 "message \x7b").1.decodeRoot = stC6.decodeRoot ∧
    (rebuildFromProto parseFail stC6 "message \x7b").1.cmdIdToMessageMap = stC6.cmdIdToMessageMap ∧
    (rebuildFromProto parseFail stC6 "message \x7b").2.success = false :=
  c6_registry_atomic parseFail stC6 "message \x7b" "syntax error" rfl

theorem redecodePacket_preserves (root : DecodeFn) (newMap : List (Nat × String)) (p : Packet) :
    (redecodePacket root newMap p).index = p.index ∧
    (redecodePacket root newMap p).timestamp = p.timestamp ∧
    (redecodePacket root newMap p).source = p.source ∧
    (redecodePacket root newMap p).id = p.id ∧
    (redecodePacket root newMap p).length = p.length ∧
    (redecodePacket root newMap p).binary = p.binary := by
  unfold redecodePacket
  cases lookupMap newMap p.id with
  | none => exact ⟨rfl, rfl, rfl, rfl, rfl, rfl⟩
  | some protoName =>
    dsimp only
    by_cases h1 : protoName = ""
    · rw [if_pos h1]
      exact ⟨rfl, rfl, rfl, rfl, rfl, rfl⟩
    · rw [if_neg h1]
      by_cases h2 : truthyStr p.binary = true
      · rw [if_pos h2]
        cases root protoName (p.binary.getD "") <;> exact ⟨rfl, rfl, rfl, rfl, rfl, rfl⟩
      · rw [if_neg h2]
        exact ⟨rfl, rfl, rfl, rfl, rfl, rfl⟩

/-- C7: neither the re-decode pass nor a whole `rebuildFromProto` run changes
any stored packet's `sequenceIndex` (nor its timestamp, source, id, length,
or binary fields): position by position, the mapped collection agrees with
the original on all identity fields, whether the packet was re-decoded,
failed to re-decode, or was left untouched. -/
theorem c7_redecode_preserves_identity (root : DecodeFn) (newMap : List (Nat × String))
    (ps : List Packet) (i : Nat) (parse : String → Except String DecodeFn) (st : AppState)
    (text : String) :
    (((ps.map (redecodePacket root newMap)).get? i).map Packet.index =
      (ps.get? i).map Packet.index ∧
    ((ps.map (redecodePacket root newMap)).get? i).map Packet.timestamp =
      (ps.get? i).map Packet.timestamp ∧
    ((ps.map (redecodePacket root newMap)).get? i).map Packet.source =
      (ps.get? i).map Packet.source ∧
    ((ps.map (redecodePacket root newMap)).get? i).map Packet.id =
      (ps.get? i).map Packet.id ∧
    ((ps.map (redecodePacket root newMap)).get? i).map Packet.length =
      (ps.get? i).map Packet.length ∧
    ((ps.map (redecodePacket root newMap)).get? i).map Packet.binary =
      (ps.get? i).map Packet.binary) ∧
    (((rebuildFromProto parse st text).1.packets.get? i).map Packet.index =
      (st.packets.get? i).map Packet.index) := by
  constructor
  · rw [List.get?_map]
    cases h : ps.get? i with
    | none => simp
    | some p =>
      have hp := redecodePacket_preserves root newMap p
      simp [hp.1, hp.2.1, hp.2.2.1, hp.2.2.2.1, hp.2.2.2.2.1, hp.2.2.2.2.2]
  · unfold rebuildFromProto
    cases parse text with
    | error msg => rfl
    | ok root2 =>
      simp only [List.get?_map]
      cases h : st.packets.get? i with
      | none => rfl
      | some p =>
        have hp := redecodePacket_preserves root2 (rebuildScanMap text) p
        simp [hp.1]

/-! ## C9: PCAP upload precondition (PcapUploadModal.processFiles) -/

/-- One entry of the `errors` array of the modal's upload result. -/
structure UploadError where
  fileName : String
  error : String
deriving DecidableEq, Repr

/-- The `UploadResult` record of the PCAP upload modal. -/
structure UploadResult where
  successCount : Nat
  errorCount : Nat
  errors : List UploadError
deriving DecidableEq, Repr

/-- JS `name.endsWith(pat)`. -/
def endsWithChars (s pat : String) : Bool := hasLead pat.data.reverse s.data.reverse

/-- The result reported when monitoring is inactive. -/
def preconditionFailure : UploadResult :=
  { successCount := 0, errorCount := 1,
    errors := [{
      fileName := "N/A",
      error := "Real-time monitoring must be active to upload PCAP files. Click the Play button to start monitoring first." }] }

/-- `processFiles` of the PCAP upload modal.  `upl` is the per-file server
upload capability (`none` = HTTP success, `some msg` = failure), `files` the
selected file names.  Returns the reported result together with the list of
files actually sent to the server, which captures the upload side effect. -/
def processFiles (upl : String → Option String) (isMonitoring : Bool) (files : List String) :
    UploadResult × List String :=
  if isMonitoring = false then (preconditionFailure, [])
  else
    let pcapFiles := files.filter (fun f =>
      endsWithChars f ".gcap" || endsWithChars f ".pcap" || endsWithChars f ".pcapng")
    if pcapFiles.isEmpty then
      ({ successCount := 0, errorCount := 0,
         errors := [{
           fileName := "N/A",
           error := "No .gcap, .pcap, or .pcapng files found" }] },
       [])
    else
      let res := pcapFiles.foldl (fun acc f =>
        match upl f with
        | none => { acc with successCount := acc.successCount + 1 }
        | some err =>
          { acc with
            errorCount := acc.errorCount + 1,
            errors := acc.errors ++ [{ fileName := f, error := err }] })
        { successCount := 0, errorCount := 0, errors := [] }
      (res, pcapFiles)

/-- C9: invoking capture-file forwarding while Live Stream monitoring is not
active fails immediately with the explanatory precondition message, sends no
upload request to the server (the list of uploaded files is empty), performs
no other effect, and is never a silent no-op (the reported error list is
nonempty). -/
theorem c9_precondition_fast_fail (upl : String → Option String) (files : List String) :
    processFiles upl false files = (preconditionFailure, []) ∧
    (processFiles upl false files).2 = [] ∧
    preconditionFailure.errors ≠ [] ∧
    preconditionFailure.successCount = 0 := by
  refine ⟨rfl, rfl, ?_, rfl⟩
  simp [preconditionFailure]

/-! ## Pcap event stream handler (listenPcapEventStream, packet visualizer) -/

/-- One entry of a decoded `UnionCmdNotify.cmdList`: an inner command id and
its base64 body. -/
structure InnerCmd where
  messageId : Nat
  body : String
deriving DecidableEq, Repr

/-- A decoded top-level record: its `JSON.stringify` rendering and, when the
record carries an array-valued `cmdList` field, that list. -/
structure UnionDecoded where
  json : String
  cmdList : Option (List InnerCmd)
deriving DecidableEq, Repr

/-- One entry of a decoded `CombatInvocationsNotify.invokeList`. -/
structure Invocation where
  argumentType : String
  combatData : String
deriving DecidableEq, Repr

/-- A decoded inner record: its rendering and, when the record carries a
truthy `invokeList` field, that list. -/
structure InnerObject where
  json : String
  invokeList : Option (List Invocation)
deriving DecidableEq, Repr

/-- The decoding capability used by the visualizer's stream listener, one
field per `root.lookupType(...).decode(...)` call site; `none` models the
thrown-and-caught exception. -/
structure PcapOracle where
  outerDecode : String → String → Option UnionDecoded
  innerDecode : String → String → Option InnerObject
  dynDecode : String → String → Option String

/-- A parsed `packetNotify` event of the visualizer (the backend
`PacketType` shape; its `index` field is overwritten on arrival). -/
structure PcapEvent where
  packetId : Nat
  packetName : String
  data : String
  binary : Option String
  time : Nat
  source : String
  length : Nat
deriving DecidableEq, Repr

/-- A packet as pushed by the visualizer's stream listener. -/
structure VisPacket where
  packetId : Nat
  packetName : Option String
  data : String
  binary : Option String
  time : Nat
  source : String
  length : Nat
  index : Nat
deriving DecidableEq, Repr

/-- `Buffer.from(s, "base64").length` for canonical base64 input; no claim
depends on the numeric value, only on its preservation. -/
def base64ByteLength (s : String) : Nat := s.length * 3 / 4

/-- `JSON.stringify(\x7b object: o, raw: body \x7d)` for an already-rendered
object and a plain base64 string. -/
def wrapObjectRaw (objJson : String) (raw : String) : String :=
  "\x7b\"object\":" ++ objJson ++ ",\"raw\":\"" ++ raw ++ "\"\x7d"

/-- The `invokeList.forEach` body of the `CombatInvocationsNotify` special
case: derive a dynamic type name from the discriminator, skip unmapped
discriminators and failed decodes, otherwise push a third-level packet with a
freshly pre-incremented index. -/
def processInvocation (oracle : PcapOracle) (cmdBody innerName : String) (now : Nat)
    (acc : List VisPacket × Nat) (inv : Invocation) : List VisPacket × Nat :=
  match getDynamicTypeName inv.argumentType with
  | none => acc
  | some dyn =>
    match oracle.dynDecode dyn inv.combatData with
    | none => acc
    | some obj2 =>
      (acc.1 ++ [{
        packetId := 0, packetName := some (innerName ++ " - " ++ dyn),
        data := wrapObjectRaw obj2 cmdBody, binary := some "", time := now,
        source := "client", length := base64ByteLength cmdBody, index := acc.2 + 1 }],
       acc.2 + 1)

/-- The `cmdList.forEach` body of the `UnionCmdNotify` special case: resolve
the inner name (`cmdIdToMessageMap[...] || "Unknown"`), decode the inner body
(`\x7b\x7d` on failure), then either expand a `CombatInvocationsNotify` with a
truthy `invokeList` or push one second-level packet with a pre-incremented
index. -/
def processCmd (oracle : PcapOracle) (reg : List (Nat × String)) (now : Nat)
    (acc : List VisPacket × Nat) (cmd : InnerCmd) : List VisPacket × Nat :=
  let innerName := (jsOrStr (lookupMap reg cmd.messageId) (some "Unknown")).getD "Unknown"
  let innerObject := match oracle.innerDecode innerName cmd.body with
    | some o => o
    | none => { json := "\x7b\x7d", invokeList := none }
  let pushed : List VisPacket × Nat :=
    (acc.1 ++ [{
      packetId := cmd.messageId, packetName := some innerName,
      data := wrapObjectRaw innerObject.json cmd.body, binary := some "", time := now,
      source := "client", length := base64ByteLength cmd.body, index := acc.2 + 1 }],
     acc.2 + 1)
  if innerName = "CombatInvocationsNotify" then
    match innerObject.invokeList with
    | some invs => invs.foldl (processInvocation oracle cmd.body innerName now) acc
    | none => pushed
  else pushed

/-- The `packetNotify` listener of `listenPcapEventStream`: assigns
`packet.index = globalPacketIndex++`; when the event has no textual data it
resolves the name from the registry and decodes the binary (soft-failing to
`\x7b"status":-1\x7d`, or `\x7b"status":-2\x7d` when the binary is missing);
a decoded `UnionCmdNotify` with an array `cmdList` is expanded into its inner
command packets ONLY (the parent is not pushed in that branch); all other
events are pushed as a single packet.  Returns the pushed packets and the
updated counter. -/
def pcapHandler (oracle : PcapOracle) (reg : List (Nat × String)) (now g : Nat)
    (ev : PcapEvent) : List VisPacket × Nat :=
  let parentIdx := g
  let g1 := g + 1
  if ev.data = "" then
    let protoName := lookupMap reg ev.packetId
    if truthyStr ev.binary then
      let attempt := match protoName with
        | none => none
        | some n => oracle.outerDecode n (ev.binary.getD "")
      match attempt with
      | some dm =>
        if protoName = some "UnionCmdNotify" then
          match dm.cmdList with
          | some cmds => cmds.foldl (processCmd oracle reg now) ([], g1)
          | none =>
            ([{ packetId := ev.packetId, packetName := protoName, data := dm.json,
                binary := ev.binary, time := ev.time, source := ev.source,
                length := ev.length, index := parentIdx }], g1)
        else
          ([{ packetId := ev.packetId, packetName := protoName, data := dm.json,
              binary := ev.binary, time := ev.time, source := ev.source,
              length := ev.length, index := parentIdx }], g1)
      | none =>
        ([{ packetId := ev.packetId, packetName := protoName, data := "\x7b\"status\":-1\x7d",
            binary := ev.binary, time := ev.time, source := ev.source,
            length := ev.length, index := parentIdx }], g1)
    else
      ([{ packetId := ev.packetId, packetName := protoName, data := "\x7b\"status\":-2\x7d",
          binary := ev.binary, time := ev.time, source := ev.source,
          length := ev.length, index := parentIdx }], g1)
  else
    ([{ packetId := ev.packetId, packetName := some ev.packetName, data := ev.data,
        binary := ev.binary, time := ev.time, source := ev.source,
        length := ev.length, index := parentIdx }], g1)

/-! ## C1: envelope expansion -/

/-- An inner command whose id resolves in the registry to a plain (non
combat-invocation) message name, as in the claim's scenario. -/
def resolvesPlain (reg : List (Nat × String)) (c : InnerCmd) : Prop :=
  ∃ n, lookupMap reg c.messageId = some n ∧ n ≠ "" ∧ n ≠ "CombatInvocationsNotify"

theorem processCmd_emits_one (oracle : PcapOracle) (reg : List (Nat × String)) (now : Nat)
    (ps : List VisPacket) (g : Nat) (c : InnerCmd) (h : resolvesPlain reg c) :
    (processCmd oracle reg now (ps, g) c).1.map VisPacket.index =
      ps.map VisPacket.index ++ [g + 1] ∧
    (processCmd oracle reg now (ps, g) c).2 = g + 1 := by
  obtain ⟨n, hl, hne, hnc⟩ := h
  unfold processCmd
  simp only [hl, jsOrStr, if_neg hne, Option.getD_some]
  rw [if_neg hnc]
  constructor
  · simp
  · rfl

theorem processCmdList_indices (oracle : PcapOracle) (reg : List (Nat × String)) (now : Nat) :
    ∀ (l : List InnerCmd) (ps : List VisPacket) (g : Nat),
    (∀ c ∈ l, resolvesPlain reg c) →
    (l.foldl (processCmd oracle reg now) (ps, g)).1.map VisPacket.index =
      ps.map VisPacket.index ++ (List.range l.length).map (fun i => g + 1 + i) ∧
    (l.foldl (processCmd oracle reg now) (ps, g)).2 = g + l.length := by
  intro l
  induction l with
  | nil => intro ps g _; simp
  | cons c cs ih =>
    intro ps g hres
    have hc := processCmd_emits_one oracle reg now ps g c (hres c (List.mem_cons_self c cs))
    have hstep : processCmd oracle reg now (ps, g) c =
        ((processCmd oracle reg now (ps, g) c).1, g + 1) := by
      rw [← hc.2]
    rw [List.foldl_cons, hstep]
    have ihh := ih (processCmd oracle reg now (ps, g) c).1 (g + 1)
      (fun d hd => hres d (List.mem_cons_of_mem c hd))
    have htail : (List.range cs.length).map (fun i => g + 1 + 1 + i) =
        (List.range cs.length).map ((fun i => g + 1 + i) ∘ Nat.succ) := by
      apply List.map_congr_left
      intro a _
      simp only [Function.comp_apply]
      omega
    refine ⟨?_, ?_⟩
    · rw [ihh.1, hc.1, List.length_cons, List.range_succ_eq_map, List.map_cons,
        List.map_map, List.append_assoc, List.singleton_append, htail, Nat.add_zero]
    · rw [ihh.2, List.length_cons]
      omega

/-- C1 amended: for a successfully decoded `UnionCmdNotify` envelope with an
array-valued 3-entry inner command list whose inner ids all resolve in the
registry (to plain inner messages), the pcap stream handler emits exactly the
3 synthesized child packets and does NOT emit the parent envelope packet
(expansion replaces the parent in this branch).  The parent still consumes
index `g`; the children receive the strictly larger indices
`g+2, g+3, g+4`, each greater than the parent's index and than every
previously assigned index. -/
theorem c1_envelope_children_only (oracle : PcapOracle) (reg : List (Nat × String))
    (now g : Nat) (ev : PcapEvent) (b : String) (dm : UnionDecoded) (cmds : List InnerCmd)
    (hdata : ev.data = "")
    (hname : lookupMap reg ev.packetId = some "UnionCmdNotify")
    (hbin : ev.binary = some b) (hb : b ≠ "")
    (hdec : oracle.outerDecode "UnionCmdNotify" b = some dm)
    (hlist : dm.cmdList = some cmds) (hlen : cmds.length = 3)
    (hres : ∀ c ∈ cmds, resolvesPlain reg c) :
    (pcapHandler oracle reg now g ev).1.length = 3 ∧
    (pcapHandler oracle reg now g ev).1.map VisPacket.index = [g + 2, g + 3, g + 4] ∧
    (∀ p ∈ (pcapHandler oracle reg now g ev).1, g < p.index) := by
  have htb : truthyStr (some b) = true := by simp [truthyStr, hb]
  have heval : pcapHandler oracle reg now g ev =
      cmds.foldl (processCmd oracle reg now) ([], g + 1) := by
    unfold pcapHandler
    simp [hdata, hname, hbin, htb, hdec, hlist]
  have hfold := processCmdList_indices oracle reg now cmds [] (g + 1) hres
  have hmap : (pcapHandler oracle reg now g ev).1.map VisPacket.index = [g + 2, g + 3, g + 4] := by
    rw [heval, hfold.1, hlen]
    simp only [List.map_nil, List.nil_append,
      show List.range 3 = [0, 1, 2] from rfl, List.map_cons, List.map_nil, List.cons.injEq,
      and_true]
  refine ⟨?_, hmap, ?_⟩
  · have := congrArg List.length hmap
    simpa using this
  · intro p hp
    have hmem : p.index ∈ (pcapHandler oracle reg now g ev).1.map VisPacket.index :=
      List.mem_map_of_mem VisPacket.index hp
    rw [hmap] at hmem
    simp only [List.mem_cons, List.not_mem_nil, or_false] at hmem
    rcases hmem with h | h | h <;> omega

/-- The concrete envelope scenario: registry resolving the envelope id and
the three inner ids, an outer decode yielding a 3-entry command list, inner
decodes yielding plain objects. -/
def dmC1 : UnionDecoded :=
  { json := "\x7b\"cmdList\":\"...\"\x7d",
    cmdList := some [{ messageId := 10, body := "YQ==" },
      { messageId := 11, body := "Yg==" }, { messageId := 12, body := "Yw==" }] }

/-- The decode capability of the concrete envelope scenario. -/
def oracleC1 : PcapOracle :=
  { outerDecode := fun n b => if n = "UnionCmdNotify" then (if b = "QQ==" then some dmC1 else none) else none,
    innerDecode := fun _ _ => some { json := "\x7b\x7d", invokeList := none },
    dynDecode := fun _ _ => none }

/-- The registry of the concrete envelope scenario. -/
def regC1 : List (Nat × String) :=
  [(100, "UnionCmdNotify"), (10, "AbilityInvokeNotify"), (11, "EvtDoSkillSuccNotify"),
   (12, "PingReq")]

/-- The concrete envelope event (no textual data, binary present). -/
def evC1 : PcapEvent :=
  { packetId := 100, packetName := "orig", data := "", binary := some "QQ==",
    time := 5, source := "client", length := 20 }

/-- C1 counterexample: the concrete 3-entry envelope whose inner ids all
resolve yields exactly 3 packets, not the 4 (1 parent + 3 children) the claim
requires — the parent envelope packet is not emitted. -/
theorem c1_counterexample :
    (pcapHandler oracleC1 regC1 99 0 evC1).1.length = 3 ∧
    ¬ (pcapHandler oracleC1 regC1 99 0 evC1).1.length = 4 ∧
    (pcapHandler oracleC1 regC1 99 0 evC1).1.map VisPacket.index = [2, 3, 4] := by
  decide

/-- C1 witness: the amended theorem applied to the concrete envelope
scenario, discharging every hypothesis there. -/
theorem c1_envelope_children_only_witness :
    (pcapHandler oracleC1 regC1 99 0 evC1).1.length = 3 ∧
    (pcapHandler oracleC1 regC1 99 0 evC1).1.map VisPacket.index = [0 + 2, 0 + 3, 0 + 4] ∧
    (∀ p ∈ (pcapHandler oracleC1 regC1 99 0 evC1).1, 0 < p.index) :=
  c1_envelope_children_only oracleC1 regC1 99 0 evC1 "QQ==" dmC1
    ((dmC1.cmdList).getD []) rfl (by decide) rfl (by decide) (by decide) rfl (by decide)
    (by
      intro c hc
      have hc2 : c ∈ [({ messageId := 10, body := "YQ==" } : InnerCmd),
          { messageId := 11, body := "Yg==" }, { messageId := 12, body := "Yw==" }] := hc
      simp only [List.mem_cons, List.not_mem_nil, or_false] at hc2
      rcases hc2 with h | h | h
      · exact ⟨"AbilityInvokeNotify", by rw [h]; decide, by decide, by decide⟩
      · exact ⟨"EvtDoSkillSuccNotify", by rw [h]; decide, by decide, by decide⟩
      · exact ⟨"PingReq", by rw [h]; decide, by decide, by decide⟩)

/-! ## C8: payload text when neither binary nor inline data is available -/

/-- A live stream record with neither a binary payload nor inline data. -/
def recC8 : StreamRecord :=
  { packetId := 9, packetName := none, data := .undef, binary := none,
    time := some 1, source := none, length := none }

/-- C8 counterexample: in the `startMonitoring` live path, a record with
neither binary nor inline data produces a packet whose payload text is the
EMPTY STRING — not `"\x7b\x7d"` and not a JSON sentinel object — although its
`dataSource` is `"JSON"`. -/
theorem c8_counterexample :
    (streamHandler decNone [] 5 0 recC8).1.data = "" ∧
    (streamHandler decNone [] 5 0 recC8).1.data ≠ "\x7b\x7d" ∧
    (streamHandler decNone [] 5 0 recC8).1.data ≠ "\x7b\"status\":-2\x7d" ∧
    (streamHandler decNone [] 5 0 recC8).1.dataSource = "JSON" := by
  decide

theorem fallbackText_of_falsy (d : JsData) (h : d.truthy = false) : d.fallbackText = "" := by
  cases d with
  | undef => rfl
  | str s =>
    simp only [JsData.truthy, bne_iff_ne, ne_eq, Bool.ite_eq_false_distrib] at h
    simp only [JsData.fallbackText]
    by_cases hs : s = ""
    · exact hs
    · simp [hs] at h
  | obj j => simp [JsData.truthy] at h

/-- C8 amended: with neither a (truthy) binary payload nor truthy inline
data, the `startMonitoring` live path produces a packet whose payload text is
the empty string (not `"\x7b\x7d"`, not a sentinel) with
`dataSource = "JSON"`, while the visualizer's pcap stream path produces
exactly one packet carrying the JSON sentinel `\x7b"status":-2\x7d`. -/
theorem c8_payload_fallback (f : DecodeFn) (oracle : PcapOracle)
    (reg reg2 : List (Nat × String)) (now now2 g g2 : Nat) (r : StreamRecord) (ev : PcapEvent)
    (h1 : truthyStr r.binary = false) (h2 : r.data.truthy = false)
    (h3 : ev.data = "") (h4 : truthyStr ev.binary = false) :
    ((streamHandler f reg now g r).1.data = "" ∧
      (streamHandler f reg now g r).1.dataSource = "JSON") ∧
    ((pcapHandler oracle reg2 now2 g2 ev).1.map VisPacket.data = ["\x7b\"status\":-2\x7d"] ∧
      (pcapHandler oracle reg2 now2 g2 ev).1.length = 1) := by
  have hatt : streamDecodeAttempt f reg r = none := by
    unfold streamDecodeAttempt
    simp [h1]
  refine ⟨⟨?_, ?_⟩, ?_, ?_⟩
  · simp [streamHandler, hatt, fallbackText_of_falsy r.data h2]
  · simp [streamHandler, hatt]
  · unfold pcapHandler
    simp [h3, h4]
  · unfold pcapHandler
    simp [h3, h4]

/-- An empty pcap event (no textual data, no binary). -/
def evC8 : PcapEvent :=
  { packetId := 9, packetName := "orig", data := "", binary := none,
    time := 1, source := "client", length := 0 }

/-- C8 witness: the amended fallback behaviour at concrete inputs. -/
theorem c8_payload_fallback_witness :
    ((streamHandler decNone [] 5 0 recC8).1.data = "" ∧
      (streamHandler decNone [] 5 0 recC8).1.dataSource = "JSON") ∧
    ((pcapHandler oracleC1 [] 7 0 evC8).1.map VisPacket.data = ["\x7b\"status\":-2\x7d"] ∧
      (pcapHandler oracleC1 [] 7 0 evC8).1.length = 1) :=
  c8_payload_fallback decNone oracleC1 [] [] 5 7 0 0 recC8 evC8
    (by decide) (by decide) (by decide) (by decide)
